import Mathlib

/-!
Verification development for the Bite & Fight channel game bot
(`src/bot.py`).  The definitions below are a shallow embedding of the
game's data model and operations, translated directly from the source:
the per-channel game session (`BiteFightGame`), the lobby join button
(`joinBtn`), the begin guard (`bfBegin`), the round-resolution engine
(bleed ticks, attack resolution with bite/fight branches), and the
persistent documents (lifetime stats, tournament state, per-tournament
stats, prize ledger) together with the match-finish update path
(`finishMatch`) and the prize-delivery command (`prizeDone`).

Randomness is embedded by passing each `random.*` call's outcome as an
explicit parameter: calls to `random.random()` become rational draws in
`[0,1)`, `random.randint(a,b)` becomes a natural-number draw constrained
to `[a,b]`, `random.choice` / `random.shuffle` become an explicit
selection index / an explicitly supplied ordering.
-/

namespace BiteFight

/-- A chat user as the game sees it: stable numeric id, display name and
the bot flag (`discord.Member`; member equality compares ids). -/
structure Player where
  id : Nat
  name : String
  isBot : Bool
deriving DecidableEq, Repr

/-- Maximum health, `self.max_hp = 100`, fixed for every match. -/
def maxHp : Int := 100

/-- Point update of an integer-valued map (a Python dict entry write). -/
def updI (m : Nat → Int) (k : Nat) (v : Int) : Nat → Int :=
  fun x => if x = k then v else m x

/-- Point update of a natural-valued map. -/
def updN (m : Nat → Nat) (k : Nat) (v : Nat) : Nat → Nat :=
  fun x => if x = k then v else m x

/-- Clamp from the source: `clamp(v, lo, hi) = max(lo, min(hi, v))`. -/
def clamp (v lo hi : Int) : Int := max lo (min hi v)

/-- Per-channel game session state (`class BiteFightGame`).  Python dicts
with integer default (`hp.get(..., 0)`, `defaultdict(int)`) are modelled
as total functions defaulting to 0. -/
structure BiteFightGame where
  inLobby : Bool
  running : Bool
  players : List Player
  hp : Nat → Int
  bleed : Nat → Int
  roundNum : Nat
  kills : Nat → Nat
  isTournament : Bool
  entryFee : Int
  pot : Int
  buyins : Nat → Int

/-- Alive players, `alive_players(game)`: roster members with positive health. -/
def alivePlayers (g : BiteFightGame) : List Player :=
  g.players.filter (fun p => decide (0 < g.hp p.id))

/-- Candidate targets for `pick_target`: alive players other than the
attacker. -/
def targetCandidates (g : BiteFightGame) (a : Player) : List Player :=
  (alivePlayers g).filter (fun p => decide (p.id ≠ a.id))

/-- Target selection, `pick_target(game, attacker)`: `random.choice` over the candidates,
embedded as selection by an externally supplied index (reduced modulo the
number of candidates); `none` when no candidate remains. -/
def pickTarget (g : BiteFightGame) (a : Player) (sel : Nat) : Option Player :=
  (targetCandidates g a).get? (sel % (targetCandidates g a).length)

/-- Result of the lobby Join button (`LobbyView.join_btn`). -/
inductive JoinResult where
  | lobbyClosed
  | botRejected
  | alreadyIn
  | joined
deriving DecidableEq, Repr

/-- Join handler `LobbyView.join_btn`: reject when the lobby is closed, the user is a
bot, or the user is already in the roster (member equality is by id);
otherwise add the entry fee to the pot and record the buy-in when
tournament-scoped, append the player and set their health to `max_hp`. -/
def joinBtn (g : BiteFightGame) (u : Player) : JoinResult × BiteFightGame :=
  if !g.inLobby then (.lobbyClosed, g)
  else if u.isBot then (.botRejected, g)
  else if g.players.any (fun p => p.id == u.id) then (.alreadyIn, g)
  else
    let g1 :=
      if g.isTournament then
        { g with pot := g.pot + g.entryFee,
                 buyins := updI g.buyins u.id (g.buyins u.id + g.entryFee) }
      else g
    (.joined, { g1 with players := g1.players ++ [u],
                        hp := updI g1.hp u.id maxHp })

/-- Folding a sequence of join attempts (each attempt's state effect). -/
def joinSeq (g : BiteFightGame) (us : List Player) : BiteFightGame :=
  us.foldl (fun s u => (joinBtn s u).2) g

/-! ## Round resolution (`run_game`, lines 833–923) -/

/-- The outcomes of the RNG calls one attacker's action can make.
`actionRoll`, `biteMissRoll`, `bleedRoll`, `fightMissRoll`, `critRoll`
are the results of `random.random()`; `biteDmgRoll`, `bleedStackRoll`,
`fightBaseRoll` the results of `random.randint(8,18)`, `(2,5)`,
`(14,28)`; `targetSel` drives `random.choice` in `pick_target`. -/
structure AttackDraws where
  targetSel : Nat
  actionRoll : ℚ
  biteMissRoll : ℚ
  biteDmgRoll : Nat
  bleedRoll : ℚ
  bleedStackRoll : Nat
  fightMissRoll : ℚ
  fightBaseRoll : Nat
  critRoll : ℚ
deriving DecidableEq, Repr

/-- The constraints uniform sampling puts on one action's draws:
`random.random()` lies in `[0,1)` and each `randint` in its range. -/
def validDraws (d : AttackDraws) : Prop :=
  0 ≤ d.actionRoll ∧ d.actionRoll < 1 ∧
  0 ≤ d.biteMissRoll ∧ d.biteMissRoll < 1 ∧
  0 ≤ d.bleedRoll ∧ d.bleedRoll < 1 ∧
  0 ≤ d.fightMissRoll ∧ d.fightMissRoll < 1 ∧
  0 ≤ d.critRoll ∧ d.critRoll < 1 ∧
  8 ≤ d.biteDmgRoll ∧ d.biteDmgRoll ≤ 18 ∧
  2 ≤ d.bleedStackRoll ∧ d.bleedStackRoll ≤ 5 ∧
  14 ≤ d.fightBaseRoll ∧ d.fightBaseRoll ≤ 28

instance (d : AttackDraws) : Decidable (validDraws d) := by
  unfold validDraws; infer_instance

/-- Which branch the action took. -/
inductive ActionKind where
  | bite
  | fight
deriving DecidableEq, Repr

/-- Structured record of one resolved action (the data the source's
narrated event strings carry). -/
structure AttackEvent where
  attackerId : Nat
  targetId : Nat
  kind : ActionKind
  missed : Bool
  dmg : Int
  bleedApplied : Bool
  targetHpAfter : Int
  killed : Bool
deriving DecidableEq, Repr

/-- One attacker's action against an already chosen target, transcribing
the bite/fight branches of `run_game`:
bite with probability 0.55 (`random.random() < 0.55`); a bite misses
with probability 0.15, else deals `randint(8,18)` damage and with
probability 0.30 adds a `randint(2,5)` bleed stack onto the target's
existing stack; a fight misses with probability 0.12, else deals
`randint(14,28)` base damage, multiplied by 1.5 with integer truncation
(`int(base * 1.5)`, i.e. `3 * base / 2` rounded down) with probability
0.15.  Damage is applied through `clamp(hp - dmg, 0, max_hp)`, and a
target left at 0 HP credits one kill to the attacker. -/
def attackAction (g : BiteFightGame) (a t : Player) (d : AttackDraws) :
    BiteFightGame × AttackEvent :=
  if d.actionRoll < 55 / 100 then
    -- bite branch
    if d.biteMissRoll < 15 / 100 then
      (g, ⟨a.id, t.id, .bite, true, 0, false, g.hp t.id, false⟩)
    else
      let dmg : Int := (d.biteDmgRoll : Int)
      let applyBleed : Bool := decide (d.bleedRoll < 30 / 100)
      let g1 :=
        if applyBleed then
          { g with bleed := updI g.bleed t.id (g.bleed t.id + (d.bleedStackRoll : Int)) }
        else g
      let newHp := clamp (g1.hp t.id - dmg) 0 maxHp
      let g2 := { g1 with hp := updI g1.hp t.id newHp }
      if newHp ≤ 0 then
        ({ g2 with kills := updN g2.kills a.id (g2.kills a.id + 1) },
         ⟨a.id, t.id, .bite, false, dmg, applyBleed, newHp, true⟩)
      else
        (g2, ⟨a.id, t.id, .bite, false, dmg, applyBleed, newHp, false⟩)
  else
    -- fight branch
    if d.fightMissRoll < 12 / 100 then
      (g, ⟨a.id, t.id, .fight, true, 0, false, g.hp t.id, false⟩)
    else
      let crit : Bool := decide (d.critRoll < 15 / 100)
      let dmg : Int := if crit then ((3 * d.fightBaseRoll / 2 : Nat) : Int)
                       else (d.fightBaseRoll : Int)
      let newHp := clamp (g.hp t.id - dmg) 0 maxHp
      let g2 := { g with hp := updI g.hp t.id newHp }
      if newHp ≤ 0 then
        ({ g2 with kills := updN g2.kills a.id (g2.kills a.id + 1) },
         ⟨a.id, t.id, .fight, false, dmg, false, newHp, true⟩)
      else
        (g2, ⟨a.id, t.id, .fight, false, dmg, false, newHp, false⟩)

/-- The attack phase: the shuffled attacker list (each with its action's
draws) is processed in order; an attacker already at 0 HP is skipped, and
the phase stops early when no target remains. -/
def attackPhase (g : BiteFightGame) :
    List (Player × AttackDraws) → BiteFightGame × List AttackEvent
  | [] => (g, [])
  | (a, d) :: rest =>
    if g.hp a.id ≤ 0 then attackPhase g rest
    else
      match pickTarget g a d.targetSel with
      | none => (g, [])
      | some t =>
        let step := attackAction g a t d
        let next := attackPhase step.1 rest
        (next.1, step.2 :: next.2)

/-- Structured record of one bleed tick. -/
structure BleedEvent where
  playerId : Nat
  dmg : Int
  died : Bool
deriving DecidableEq, Repr

/-- One player's bleed tick: when the stack is positive and the player is
alive, subtract the stack from health through `clamp`. -/
def bleedTick (g : BiteFightGame) (p : Player) : BiteFightGame × Option BleedEvent :=
  if 0 < g.bleed p.id ∧ 0 < g.hp p.id then
    let newHp := clamp (g.hp p.id - g.bleed p.id) 0 maxHp
    ({ g with hp := updI g.hp p.id newHp },
     some ⟨p.id, g.bleed p.id, decide (newHp ≤ 0)⟩)
  else (g, none)

/-- Bleed ticks over a snapshot list of players. -/
def bleedPhaseAux (g : BiteFightGame) :
    List Player → BiteFightGame × List BleedEvent
  | [] => (g, [])
  | p :: rest =>
    let step := bleedTick g p
    let next := bleedPhaseAux step.1 rest
    (next.1, (step.2.toList) ++ next.2)

/-- The bleed phase runs over the players alive at its start. -/
def bleedPhase (g : BiteFightGame) : BiteFightGame × List BleedEvent :=
  bleedPhaseAux g (alivePlayers g)

/-- One resolved round: increment the round counter, run the bleed
phase, then the attack phase over the supplied shuffled attacker order
(in a real run, a permutation of the players alive after bleed). -/
def resolveRound (g : BiteFightGame) (order : List (Player × AttackDraws)) :
    BiteFightGame × List BleedEvent × List AttackEvent :=
  let g0 := { g with roundNum := g.roundNum + 1 }
  let afterBleed := bleedPhase g0
  let afterAttacks := attackPhase afterBleed.1 order
  (afterAttacks.1, afterBleed.2, afterAttacks.2)

/-- Several rounds in sequence, collecting every attack event. -/
def runRounds (g : BiteFightGame) :
    List (List (Player × AttackDraws)) → BiteFightGame × List AttackEvent
  | [] => (g, [])
  | r :: rs =>
    let round := resolveRound g r
    let rest := runRounds round.1 rs
    (rest.1, round.2.2 ++ rest.2)

/-! ## Persistent documents and the match-finish path -/

/-- Counter bump `_bump(dct, key, by)` for natural counters: `dct[key] = dct.get(key, 0) + by`. -/
def bumpN (m : Nat → Nat) (k : Nat) (by_ : Nat) : Nat → Nat :=
  fun x => if x = k then m x + by_ else m x

/-- Counter bump `_bump` for integer counters. -/
def bumpI (m : Nat → Int) (k : Nat) (by_ : Int) : Nat → Int :=
  fun x => if x = k then m x + by_ else m x

/-- A wins/kills pair (one scope of the lifetime stats document). -/
structure GK where
  wins : Nat → Nat
  kills : Nat → Nat

/-- The lifetime stats document (`bf_stats.json`): a global scope plus a
per-guild scope, both defaulting to empty counters. -/
structure Stats where
  global : GK
  guilds : Nat → GK

/-- The singleton tournament state document (`bf_tourney.json`). -/
structure TourneyState where
  active : Bool
  id : Option String
  name : String
  ante : Int
  channelId : Option Nat
  gamesTarget : Nat
  gamesPlayed : Nat
  prizeMode : String
  wishlistCount : Nat
  mixedCreditsPct : Nat

/-- One tournament's stats record in `bf_tourney_stats.json`. -/
structure TStats where
  wins : Nat → Nat
  kills : Nat → Nat
  creditsWon : Nat → Int
  games : Nat
  pots : Int

/-- The default record used when a tournament id has no entry yet. -/
def TStats.empty : TStats :=
  ⟨fun _ => 0, fun _ => 0, fun _ => 0, 0, 0⟩

/-- The per-tournament stats document: a map keyed by tournament id
(`None` is a possible key, since `state.get("id")` may be null). -/
def TStatsAll : Type := Option String → Option TStats

/-- One entry of the prize ledger (`bf_prizes.json`). -/
structure PrizeEntry where
  id : Nat
  type : String
  amount : Int
  count : Nat
  winnerId : Nat
  winnerName : String
deriving DecidableEq, Repr

/-- The prize ledger document: a sequence counter and the open and
closed entry lists. -/
structure PrizeLedger where
  seq : Nat
  openEntries : List PrizeEntry
  closedEntries : List PrizeEntry
deriving DecidableEq, Repr

/-- All persisted documents together. -/
structure World where
  stats : Stats
  tstate : TourneyState
  tstats : TStatsAll
  prizes : PrizeLedger

/-- The per-player kill bumps of the finish path
(`for uid, k in game.kills.items(): if k > 0: _bump(...)`): the keys of
the kills defaultdict are roster member ids, so the iteration is folded
over the roster. -/
def bumpKillsGK (g : BiteFightGame) (s : GK) : GK :=
  g.players.foldl
    (fun s p => if 0 < g.kills p.id then
        { s with kills := bumpN s.kills p.id (g.kills p.id) } else s) s

/-- The same kill bumps into a per-tournament stats record. -/
def bumpKillsTS (g : BiteFightGame) (ts : TStats) : TStats :=
  g.players.foldl
    (fun ts p => if 0 < g.kills p.id then
        { ts with kills := bumpN ts.kills p.id (g.kills p.id) } else ts) ts

/-- The ledger updates of the match-finish path in `run_game`
(lines 989–1033), for a finished match in guild `gid` with the given
winner (`none` when everyone fell):
bump the winner's lifetime wins (global and guild scope) and every
killer's lifetime kills; then, when the session is tournament-scoped,
re-read the tournament state, key the per-tournament stats by the id
found there, bump the winner's tournament wins and credit the winner's
`credits_won` with the match pot, bump tournament kills, add one game
and the pot to the totals, and increment `games_played` on the
tournament state.  The prize ledger document is not touched by this
path anywhere in the source. -/
def finishMatch (gid : Nat) (w : World) (g : BiteFightGame)
    (winner : Option Player) : World :=
  let st := w.stats
  let st :=
    match winner with
    | some p =>
      { st with global := { st.global with wins := bumpN st.global.wins p.id 1 },
                guilds := fun x => if x = gid then
                    { (st.guilds gid) with wins := bumpN (st.guilds gid).wins p.id 1 }
                  else st.guilds x }
    | none => st
  let st :=
    { st with global := bumpKillsGK g st.global,
              guilds := fun x => if x = gid then bumpKillsGK g (st.guilds gid)
                        else st.guilds x }
  if g.isTournament then
    let tid := w.tstate.id
    let ts := (w.tstats tid).getD TStats.empty
    let ts :=
      match winner with
      | some p =>
        { ts with wins := bumpN ts.wins p.id 1,
                  creditsWon := bumpI ts.creditsWon p.id g.pot }
      | none => ts
    let ts := bumpKillsTS g ts
    let ts := { ts with games := ts.games + 1, pots := ts.pots + g.pot }
    { stats := st,
      tstate := { w.tstate with gamesPlayed := w.tstate.gamesPlayed + 1 },
      tstats := fun k => if k = tid then some ts else w.tstats k,
      prizes := w.prizes }
  else
    { w with stats := st }

/-! ## Session reset and the begin guard -/

/-- Session reset, `BiteFightGame.reset`: clear the session back to an empty
lobby-eligible shell, re-snapshotting the tournament context from the
current tournament state (`_tourney_state_load()`). -/
def resetGame (s : TourneyState) : BiteFightGame :=
  { inLobby := false, running := false, players := [],
    hp := fun _ => 0, bleed := fun _ => 0, roundNum := 0,
    kills := fun _ => 0,
    isTournament := s.active,
    entryFee := if s.active then s.ante else 0,
    pot := 0, buyins := fun _ => 0 }

/-- Result of the begin operation (`bf_begin`). -/
inductive BeginResult where
  | noGame
  | cancelled
  | started
deriving DecidableEq, Repr

/-- Begin operation `bf_begin`: no-op without an open lobby; with fewer than 2 joined
players, cancel and reset the session (no persisted document is read
other than the tournament state re-read inside `reset`, and none is
written); otherwise flip to running with `round_num = 0`. -/
def bfBegin (w : World) (g : BiteFightGame) :
    BeginResult × World × BiteFightGame :=
  if !g.inLobby then (.noGame, w, g)
  else if g.players.length < 2 then (.cancelled, w, resetGame w.tstate)
  else (.started, w, { g with inLobby := false, running := true, roundNum := 0 })

/-! ## Prize delivery (`bf_prize_done`) -/

/-- Remove the first entry with the given id from a list, returning it
and the remaining list (the source scans `L["open"]` with an index and
deletes the first match). -/
def removeFirst (pid : Nat) : List PrizeEntry → Option (PrizeEntry × List PrizeEntry)
  | [] => none
  | e :: rest =>
    if e.id = pid then some (e, rest)
    else
      match removeFirst pid rest with
      | none => none
      | some (x, rest') => some (x, e :: rest')

/-- Prize delivery command `bf_prize_done <id>`: move the first open entry with that id to the
closed list and save; report an error (`false`) and leave the ledger
unchanged when the id is unknown. -/
def prizeDone (L : PrizeLedger) (pid : Nat) : PrizeLedger × Bool :=
  match removeFirst pid L.openEntries with
  | some (e, rest) =>
    ({ L with openEntries := rest, closedEntries := L.closedEntries ++ [e] }, true)
  | none => (L, false)

/-! ## Concrete fixtures used by witnesses and counterexamples -/

/-- A human test player. -/
def alice : Player := ⟨1, "Alice", false⟩

/-- A second human test player. -/
def bob : Player := ⟨2, "Bob", false⟩

/-- An active tournament state whose prize mode is `wishlist`. -/
def cWishState : TourneyState :=
  { active := true, id := some "T1", name := "Tournament T1", ante := 50,
    channelId := some 10, gamesTarget := 10, gamesPlayed := 0,
    prizeMode := "wishlist", wishlistCount := 2, mixedCreditsPct := 70 }

/-- Empty persisted documents under the `wishlist` tournament. -/
def cWorld0 : World :=
  { stats := ⟨⟨fun _ => 0, fun _ => 0⟩, fun _ => ⟨fun _ => 0, fun _ => 0⟩⟩,
    tstate := cWishState,
    tstats := fun _ => none,
    prizes := ⟨0, [], []⟩ }

/-- A tournament-scoped match about to finish: Alice alone alive with one
kill, pot 100 from two 50-credit buy-ins. -/
def cGame : BiteFightGame :=
  { inLobby := false, running := true, players := [alice, bob],
    hp := fun x => if x = 1 then 37 else 0, bleed := fun _ => 0, roundNum := 3,
    kills := fun x => if x = 1 then 1 else 0,
    isTournament := true, entryFee := 50, pot := 100,
    buyins := fun x => if x = 1 ∨ x = 2 then 50 else 0 }

/-- The same world with the tournament at `games_target = 1`, prize mode
`credits`, so that the finishing match reaches the target. -/
def cWorld1 : World :=
  { cWorld0 with tstate := { cWishState with gamesTarget := 1, prizeMode := "credits" } }

/-- A world whose tournament has already been ended (`bf_tourney_end`
set `active = False`, `id = None`) while a tournament-scoped session is
still running. -/
def cEndedWorld : World :=
  { cWorld0 with tstate := { cWishState with active := false, id := none } }

/-! ## C1 — prize ledger on match finish -/

/-- C1 (code bug evidence): the match-finish path of `run_game` never
writes the Prize Ledger at all — for every guild, world, session and
winner, the prize document (its sequence and both entry lists) after
`finishMatch` is exactly the one before.  The spec instead requires a
new `open` entry (amount = pot or count = `wishlist_count`) with a
freshly allocated sequence id whenever a tournament match finishes with
a winner. -/
theorem c1_finish_never_writes_prize_ledger (gid : Nat) (w : World)
    (g : BiteFightGame) (winner : Option Player) :
    (finishMatch gid w g winner).prizes = w.prizes := by
  unfold finishMatch
  cases winner <;> cases hg : g.isTournament <;> simp [hg]

/-- C1 witness at the concrete failing input: a finished tournament
match with a winner and pot 100 leaves the prize ledger empty with
sequence 0. -/
theorem c1_finish_never_writes_prize_ledger_witness :
    (finishMatch 5 cWorld1 cGame (some alice)).prizes = cWorld1.prizes ∧
    (finishMatch 5 cWorld1 cGame (some alice)).prizes = ⟨0, [], []⟩ :=
  ⟨c1_finish_never_writes_prize_ledger 5 cWorld1 cGame (some alice),
   (c1_finish_never_writes_prize_ledger 5 cWorld1 cGame (some alice)).trans rfl⟩

/-! ## C2 — credits_won accumulation -/

/-- The kill-bump fold into a per-tournament stats record changes only
its `kills` field. -/
theorem bumpKillsTS_fields (g : BiteFightGame) :
    ∀ (l : List Player) (ts : TStats),
      (l.foldl (fun ts p => if 0 < g.kills p.id then
          { ts with kills := bumpN ts.kills p.id (g.kills p.id) } else ts) ts).creditsWon
          = ts.creditsWon ∧
      (l.foldl (fun ts p => if 0 < g.kills p.id then
          { ts with kills := bumpN ts.kills p.id (g.kills p.id) } else ts) ts).wins
          = ts.wins ∧
      (l.foldl (fun ts p => if 0 < g.kills p.id then
          { ts with kills := bumpN ts.kills p.id (g.kills p.id) } else ts) ts).games
          = ts.games ∧
      (l.foldl (fun ts p => if 0 < g.kills p.id then
          { ts with kills := bumpN ts.kills p.id (g.kills p.id) } else ts) ts).pots
          = ts.pots := by
  intro l
  induction l with
  | nil => intro ts; exact ⟨rfl, rfl, rfl, rfl⟩
  | cons p rest ih =>
    intro ts
    simp only [List.foldl_cons]
    obtain ⟨h1, h2, h3, h4⟩ := ih (if 0 < g.kills p.id then
      { ts with kills := bumpN ts.kills p.id (g.kills p.id) } else ts)
    refine ⟨h1.trans ?_, h2.trans ?_, h3.trans ?_, h4.trans ?_⟩ <;> split <;> rfl

/-- C2 counterexample: with the prize mode set to `wishlist` — which
under the spec's resolution rule resolves to `wishlist`, never to
`credits` — finishing the match still adds the full pot (100) to the
winner's `credits_won`, so a wishlist match does not "add nothing". -/
theorem c2_counterexample :
    cWorld0.tstate.prizeMode = "wishlist" ∧
    ((finishMatch 5 cWorld0 cGame (some alice)).tstats (some "T1")).map
      (fun ts => ts.creditsWon 1) = some 100 := by
  constructor
  · rfl
  · rfl

/-- C2 (amended): at a tournament-scoped match finish with a winner, the
winner's `credits_won` in the per-tournament stats record is increased
by the match pot unconditionally — the prize mode is never consulted
(the source has no prize-mode resolution on the finish path at all). -/
theorem c2_creditsWon_bumped_regardless_of_mode (gid : Nat) (w : World)
    (g : BiteFightGame) (p : Player) (h : g.isTournament = true) :
    ((finishMatch gid w g (some p)).tstats w.tstate.id).map
      (fun ts => ts.creditsWon p.id)
      = some (((w.tstats w.tstate.id).getD TStats.empty).creditsWon p.id + g.pot) := by
  unfold finishMatch
  simp only [h, if_true]
  have hf := (bumpKillsTS_fields g g.players
    { (w.tstats w.tstate.id).getD TStats.empty with
        wins := bumpN ((w.tstats w.tstate.id).getD TStats.empty).wins p.id 1,
        creditsWon := bumpI ((w.tstats w.tstate.id).getD TStats.empty).creditsWon p.id g.pot }).1
  simp [bumpKillsTS] at hf ⊢
  simp [hf, bumpI]

/-- C2 amended witness at a concrete input. -/
theorem c2_creditsWon_bumped_regardless_of_mode_witness :
    ((finishMatch 5 cWorld0 cGame (some alice)).tstats cWorld0.tstate.id).map
      (fun ts => ts.creditsWon alice.id)
      = some (((cWorld0.tstats cWorld0.tstate.id).getD TStats.empty).creditsWon alice.id
          + cGame.pot) :=
  c2_creditsWon_bumped_regardless_of_mode 5 cWorld0 cGame alice rfl

/-! ## C3 — games_played and the missing automatic tournament end -/

/-- C3 counterexample: a tournament with `games_target = 1` finishes its
first match; `games_played` reaches the target, yet the tournament state
stays `active` with its id intact — no end-of-tournament action
(deactivation) is triggered by the finish path. -/
theorem c3_counterexample :
    cWorld1.tstate.gamesTarget = 1 ∧
    cWorld1.tstate.gamesPlayed = 0 ∧
    (finishMatch 5 cWorld1 cGame (some alice)).tstate.gamesPlayed = 1 ∧
    cWorld1.tstate.gamesTarget
      ≤ (finishMatch 5 cWorld1 cGame (some alice)).tstate.gamesPlayed ∧
    (finishMatch 5 cWorld1 cGame (some alice)).tstate.active = true ∧
    (finishMatch 5 cWorld1 cGame (some alice)).tstate.id = some "T1" :=
  ⟨rfl, rfl, rfl, le_refl 1, rfl, rfl⟩

/-- C3 (amended): after every tournament-scoped match finish,
`games_played` on the tournament state is incremented by exactly one;
no end-of-tournament action is triggered automatically — the `active`
flag, the tournament id and `games_target` are left unchanged no matter
how `games_played` compares to `games_target` (ending a tournament only
happens through the explicit end command). -/
theorem c3_gamesPlayed_incremented_never_autoends (gid : Nat) (w : World)
    (g : BiteFightGame) (winner : Option Player) (h : g.isTournament = true) :
    (finishMatch gid w g winner).tstate.gamesPlayed = w.tstate.gamesPlayed + 1 ∧
    (finishMatch gid w g winner).tstate.active = w.tstate.active ∧
    (finishMatch gid w g winner).tstate.id = w.tstate.id ∧
    (finishMatch gid w g winner).tstate.gamesTarget = w.tstate.gamesTarget := by
  unfold finishMatch
  cases winner <;> simp [h]

/-- C3 amended witness at a concrete input (the target is even reached). -/
theorem c3_gamesPlayed_incremented_never_autoends_witness :
    (finishMatch 5 cWorld1 cGame (some alice)).tstate.gamesPlayed
      = cWorld1.tstate.gamesPlayed + 1 ∧
    (finishMatch 5 cWorld1 cGame (some alice)).tstate.active = cWorld1.tstate.active ∧
    (finishMatch 5 cWorld1 cGame (some alice)).tstate.id = cWorld1.tstate.id ∧
    (finishMatch 5 cWorld1 cGame (some alice)).tstate.gamesTarget
      = cWorld1.tstate.gamesTarget :=
  c3_gamesPlayed_incremented_never_autoends 5 cWorld1 cGame (some alice) rfl

/-! ## C10 — the finish path keys tournament stats by the state read at
finish time -/

/-- C10: a tournament-scoped session's finish path re-reads the
tournament state and keys its per-tournament stats write by the id found
then: exactly the entry at the current `tstate.id` (which is `none`
after an end) is written, every other key — in particular the id the
tournament had when the session was created, if it has since changed —
is left untouched, and `games_played` is incremented on that current
state whether or not it is still active. -/
theorem c10_finish_keys_stats_by_current_state (gid : Nat) (w : World)
    (g : BiteFightGame) (winner : Option Player) (h : g.isTournament = true) :
    ((finishMatch gid w g winner).tstats w.tstate.id).isSome = true ∧
    (∀ k, k ≠ w.tstate.id → (finishMatch gid w g winner).tstats k = w.tstats k) ∧
    (finishMatch gid w g winner).tstate.gamesPlayed = w.tstate.gamesPlayed + 1 ∧
    (finishMatch gid w g winner).tstate.active = w.tstate.active := by
  unfold finishMatch
  cases winner <;> simp [h] <;> intro k hk <;> simp [hk]

/-- C10 witness: the tournament was ended while the match ran
(`active = false`, `id = None`), so the stats write lands under the key
`none` and `games_played` is incremented on the inactive state. -/
theorem c10_finish_keys_stats_by_current_state_witness :
    ((finishMatch 5 cEndedWorld cGame (some alice)).tstats cEndedWorld.tstate.id).isSome
        = true ∧
    (∀ k, k ≠ cEndedWorld.tstate.id →
      (finishMatch 5 cEndedWorld cGame (some alice)).tstats k = cEndedWorld.tstats k) ∧
    (finishMatch 5 cEndedWorld cGame (some alice)).tstate.gamesPlayed
      = cEndedWorld.tstate.gamesPlayed + 1 ∧
    (finishMatch 5 cEndedWorld cGame (some alice)).tstate.active
      = cEndedWorld.tstate.active :=
  c10_finish_keys_stats_by_current_state 5 cEndedWorld cGame (some alice) rfl

/-! ## C7 — begin with fewer than two players -/

/-- A one-player lobby about to hit the begin trigger. -/
def cLobbyGame1 : BiteFightGame :=
  { inLobby := true, running := false, players := [alice],
    hp := fun x => if x = 1 then 100 else 0, bleed := fun _ => 0, roundNum := 0,
    kills := fun _ => 0, isTournament := false, entryFee := 0, pot := 0,
    buyins := fun _ => 0 }

/-- C7: when the begin operation fires on an open lobby with fewer than
2 joined players, the session is cancelled and reset to the empty
lobby-eligible shell — roster, health, bleed, kills and pot all cleared,
neither in the lobby nor running — and every persisted document is left
exactly as it was (the cancelled path performs no ledger write), so the
match never starts. -/
theorem c7_begin_underfull_cancels (w : World) (g : BiteFightGame)
    (h1 : g.inLobby = true) (h2 : g.players.length < 2) :
    bfBegin w g = (.cancelled, w, resetGame w.tstate) ∧
    (resetGame w.tstate).players = [] ∧
    (resetGame w.tstate).inLobby = false ∧
    (resetGame w.tstate).running = false ∧
    (resetGame w.tstate).pot = 0 ∧
    (∀ i, (resetGame w.tstate).hp i = 0) ∧
    (∀ i, (resetGame w.tstate).bleed i = 0) ∧
    (∀ i, (resetGame w.tstate).kills i = 0) := by
  refine ⟨?_, rfl, rfl, rfl, rfl, fun _ => rfl, fun _ => rfl, fun _ => rfl⟩
  unfold bfBegin
  simp [h1, h2]

/-- C7 witness: begin fired on a lobby holding exactly Alice. -/
theorem c7_begin_underfull_cancels_witness :
    bfBegin cWorld0 cLobbyGame1 = (.cancelled, cWorld0, resetGame cWorld0.tstate) ∧
    (resetGame cWorld0.tstate).players = [] ∧
    (resetGame cWorld0.tstate).inLobby = false ∧
    (resetGame cWorld0.tstate).running = false ∧
    (resetGame cWorld0.tstate).pot = 0 ∧
    (∀ i, (resetGame cWorld0.tstate).hp i = 0) ∧
    (∀ i, (resetGame cWorld0.tstate).bleed i = 0) ∧
    (∀ i, (resetGame cWorld0.tstate).kills i = 0) :=
  c7_begin_underfull_cancels cWorld0 cLobbyGame1 rfl (by decide)

/-! ## C9 — marking a prize delivered -/

/-- Scanning for the first entry with a given id: when the id occurs in
the list, the scan returns that entry and the list without it, and
nothing else is lost or duplicated. -/
theorem removeFirst_of_mem (pid : Nat) :
    ∀ l : List PrizeEntry, pid ∈ l.map PrizeEntry.id →
      ∃ e rest, removeFirst pid l = some (e, rest) ∧ e.id = pid ∧
        List.Perm (e :: rest) l := by
  intro l
  induction l with
  | nil => intro h; simp at h
  | cons a l ih =>
    intro h
    by_cases ha : a.id = pid
    · exact ⟨a, l, by simp [removeFirst, ha], ha, List.Perm.refl _⟩
    · have hmem : pid ∈ l.map PrizeEntry.id := by
        rw [List.map_cons] at h
        rcases List.mem_cons.mp h with h' | h'
        · exact absurd h'.symm ha
        · exact h'
      obtain ⟨e, rest, hr, he, hperm⟩ := ih hmem
      refine ⟨e, a :: rest, by simp [removeFirst, ha, hr], he, ?_⟩
      exact (List.Perm.swap a e rest).trans (hperm.cons a)

/-- Scanning for an id that occurs nowhere finds nothing. -/
theorem removeFirst_of_not_mem (pid : Nat) :
    ∀ l : List PrizeEntry, pid ∉ l.map PrizeEntry.id →
      removeFirst pid l = none := by
  intro l
  induction l with
  | nil => intro _; rfl
  | cons a l ih =>
    intro h
    have ha : ¬ a.id = pid := fun hc => h (by simp [hc])
    have hl : pid ∉ l.map PrizeEntry.id := fun hc => h (by simp [hc])
    simp [removeFirst, ha, ih hl]

/-- C9: the mark-prize-delivered operation moves an open entry to the
closed list exactly once, identified by id.  When the id is present in
the open list, some entry with exactly that id is appended to the closed
list and removed from the open list — together the old open list is a
permutation of the new open list plus the moved entry, so no entry is
duplicated or lost, and the sequence counter is untouched.  When the id
is unknown, the error is reported (`false`) and the ledger document is
returned unchanged. -/
theorem c9_prize_done_moves_exactly_once (L : PrizeLedger) (pid : Nat) :
    (pid ∈ L.openEntries.map PrizeEntry.id →
      ∃ e, e.id = pid ∧
        (prizeDone L pid).2 = true ∧
        (prizeDone L pid).1.closedEntries = L.closedEntries ++ [e] ∧
        List.Perm (e :: (prizeDone L pid).1.openEntries) L.openEntries ∧
        (prizeDone L pid).1.seq = L.seq) ∧
    (pid ∉ L.openEntries.map PrizeEntry.id → prizeDone L pid = (L, false)) := by
  constructor
  · intro h
    obtain ⟨e, rest, hr, he, hperm⟩ := removeFirst_of_mem pid L.openEntries h
    exact ⟨e, he, by simp [prizeDone, hr], by simp [prizeDone, hr],
      by simpa [prizeDone, hr] using hperm, by simp [prizeDone, hr]⟩
  · intro h
    simp [prizeDone, removeFirst_of_not_mem pid L.openEntries h]

/-! ## C8 — join sequences, roster uniqueness, full health -/

/-- The lobby roster invariant: no duplicate player ids, and every
joined player stands at full health. -/
def lobbyInv (g : BiteFightGame) : Prop :=
  (g.players.map Player.id).Nodup ∧ ∀ p ∈ g.players, g.hp p.id = maxHp

/-- A fresh lobby as `bf_start` creates it: the reset shell with the
lobby flag raised. -/
def freshLobby (s : TourneyState) : BiteFightGame :=
  { resetGame s with inLobby := true }

/-- Acceptance condition of the join button: joined exactly when the
lobby is open, the user is no bot, and the user's id is not yet in the
roster. -/
theorem joinBtn_accept_iff (g : BiteFightGame) (u : Player) :
    (joinBtn g u).1 = .joined ↔
      g.inLobby = true ∧ u.isBot = false ∧ ∀ p ∈ g.players, p.id ≠ u.id := by
  by_cases h1 : g.inLobby = true
  · by_cases h2 : u.isBot = true
    · simp [joinBtn, h1, h2]
    · rw [Bool.not_eq_true] at h2
      by_cases h3 : g.players.any (fun p => p.id == u.id) = true
      · obtain ⟨p, hp, hpe⟩ : ∃ p ∈ g.players, p.id = u.id := by
          simpa using h3
        simp only [joinBtn, h1, h2, h3, Bool.not_true, Bool.false_eq_true,
          if_false, if_true]
        constructor
        · intro hc; exact absurd hc (by simp)
        · intro hc; exact absurd hpe (hc.2.2 p hp)
      · rw [Bool.not_eq_true] at h3
        have hall : ∀ p ∈ g.players, p.id ≠ u.id := by
          intro p hp
          simpa using (List.any_eq_false.mp h3) p hp
        simp only [joinBtn, h1, h2, h3, Bool.not_true, Bool.false_eq_true,
          if_false, if_true]
        simpa using hall
  · rw [Bool.not_eq_true] at h1
    simp [joinBtn, h1]

/-- State effect of a rejected join: the session is unchanged. -/
theorem joinBtn_reject_effect (g : BiteFightGame) (u : Player)
    (h : (joinBtn g u).1 ≠ .joined) : (joinBtn g u).2 = g := by
  unfold joinBtn at h ⊢
  split_ifs at h ⊢ <;> first | rfl | exact absurd rfl h

/-- State effect of an accepted join: the player is appended, their
health set to `max_hp`, and in a tournament lobby the pot grows by the
entry fee. -/
theorem joinBtn_accept_effect (g : BiteFightGame) (u : Player)
    (h : (joinBtn g u).1 = .joined) :
    (joinBtn g u).2.players = g.players ++ [u] ∧
    (joinBtn g u).2.hp = updI g.hp u.id maxHp ∧
    (g.isTournament = true → (joinBtn g u).2.pot = g.pot + g.entryFee) ∧
    (g.isTournament = false → (joinBtn g u).2.pot = g.pot) := by
  have hacc := (joinBtn_accept_iff g u).mp h
  have h1 : g.inLobby = true := hacc.1
  have h2 : u.isBot = false := hacc.2.1
  have h3 : (g.players.any fun p => p.id == u.id) = false := by
    rw [List.any_eq_false]
    intro p hp
    simpa using hacc.2.2 p hp
  by_cases ht : g.isTournament = true
  · refine ⟨?_, ?_, fun _ => ?_,
      fun hf => by rw [ht] at hf; exact Bool.noConfusion hf⟩ <;>
      simp [joinBtn, h1, h2, h3, ht]
  · rw [Bool.not_eq_true] at ht
    refine ⟨?_, ?_, fun hf => by rw [ht] at hf; exact Bool.noConfusion hf,
      fun _ => ?_⟩ <;>
      simp [joinBtn, h1, h2, h3, ht]

/-- One join preserves the roster invariant. -/
theorem joinBtn_lobbyInv (g : BiteFightGame) (u : Player) (h : lobbyInv g) :
    lobbyInv (joinBtn g u).2 := by
  by_cases hj : (joinBtn g u).1 = .joined
  · obtain ⟨hpl, hhp, _, _⟩ := joinBtn_accept_effect g u hj
    have hnot : ∀ p ∈ g.players, p.id ≠ u.id := ((joinBtn_accept_iff g u).mp hj).2.2
    constructor
    · rw [hpl]
      simp only [List.map_append, List.map_cons, List.map_nil]
      rw [(List.perm_append_singleton u.id (g.players.map Player.id)).nodup_iff]
      rw [List.nodup_cons]
      refine ⟨?_, h.1⟩
      intro hc
      obtain ⟨p, hp, hpe⟩ := List.mem_map.mp hc
      exact hnot p hp hpe
    · intro p hp
      rw [hpl] at hp
      rw [hhp]
      rcases List.mem_append.mp hp with hmem | hmem
      · have : p.id ≠ u.id := hnot p hmem
        simp [updI, this]
        exact h.2 p hmem
      · have : p = u := by simpa using hmem
        simp [updI, this]
  · rw [joinBtn_reject_effect g u hj]
    exact h

/-- Any sequence of joins preserves the roster invariant. -/
theorem joinSeq_lobbyInv (us : List Player) :
    ∀ g : BiteFightGame, lobbyInv g → lobbyInv (joinSeq g us) := by
  induction us with
  | nil => intro g h; exact h
  | cons u rest ih =>
    intro g h
    exact ih (joinBtn g u).2 (joinBtn_lobbyInv g u h)

/-- C8: for every sequence of join operations from a state satisfying
the roster invariant, a join is accepted exactly when the lobby is open
and the joiner is neither a bot nor already in the roster; a rejected
join leaves the session unchanged; an accepted join appends the player
with health `max_hp` and, in a tournament lobby, grows the pot by the
entry fee.  Consequently the roster never holds duplicate ids and every
joined player stands at `max_hp` after the whole sequence. -/
theorem c8_join_roster_invariants (g : BiteFightGame) (us : List Player)
    (h : lobbyInv g) :
    ((joinSeq g us).players.map Player.id).Nodup ∧
    (∀ p ∈ (joinSeq g us).players, (joinSeq g us).hp p.id = maxHp) ∧
    ∀ u : Player,
      ((joinBtn g u).1 = .joined ↔
        g.inLobby = true ∧ u.isBot = false ∧ ∀ p ∈ g.players, p.id ≠ u.id) ∧
      ((joinBtn g u).1 ≠ .joined → (joinBtn g u).2 = g) ∧
      ((joinBtn g u).1 = .joined →
        (joinBtn g u).2.players = g.players ++ [u] ∧
        (joinBtn g u).2.hp u.id = maxHp ∧
        (g.isTournament = true → (joinBtn g u).2.pot = g.pot + g.entryFee)) := by
  obtain ⟨hn, hh⟩ := joinSeq_lobbyInv us g h
  refine ⟨hn, hh, fun u => ⟨joinBtn_accept_iff g u, joinBtn_reject_effect g u, ?_⟩⟩
  intro hj
  obtain ⟨hpl, hhp, hpot, _⟩ := joinBtn_accept_effect g u hj
  exact ⟨hpl, by rw [hhp]; simp [updI], hpot⟩

/-- C8 witness: a fresh tournament lobby receiving the join sequence
Alice, Bob, Alice again (the duplicate is rejected). -/
theorem c8_join_roster_invariants_witness :
    ((joinSeq (freshLobby cWishState) [alice, bob, alice]).players.map Player.id).Nodup ∧
    (∀ p ∈ (joinSeq (freshLobby cWishState) [alice, bob, alice]).players,
      (joinSeq (freshLobby cWishState) [alice, bob, alice]).hp p.id = maxHp) ∧
    ∀ u : Player,
      ((joinBtn (freshLobby cWishState) u).1 = .joined ↔
        (freshLobby cWishState).inLobby = true ∧ u.isBot = false ∧
        ∀ p ∈ (freshLobby cWishState).players, p.id ≠ u.id) ∧
      ((joinBtn (freshLobby cWishState) u).1 ≠ .joined →
        (joinBtn (freshLobby cWishState) u).2 = freshLobby cWishState) ∧
      ((joinBtn (freshLobby cWishState) u).1 = .joined →
        (joinBtn (freshLobby cWishState) u).2.players
          = (freshLobby cWishState).players ++ [u] ∧
        (joinBtn (freshLobby cWishState) u).2.hp u.id = maxHp ∧
        ((freshLobby cWishState).isTournament = true →
          (joinBtn (freshLobby cWishState) u).2.pot
            = (freshLobby cWishState).pot + (freshLobby cWishState).entryFee)) :=
  c8_join_roster_invariants (freshLobby cWishState) [alice, bob, alice]
    ⟨by simp [freshLobby, resetGame], by simp [freshLobby, resetGame]⟩

/-! ## C4 — health and bleed bounds through round resolution -/

/-- The round-engine state invariant: every health value sits in
`[0, max_hp]` and every bleed stack is non-negative. -/
def stateInv (g : BiteFightGame) : Prop :=
  (∀ i, 0 ≤ g.hp i ∧ g.hp i ≤ maxHp) ∧ (∀ i, 0 ≤ g.bleed i)

/-- Values written through `clamp (· , 0, max_hp)` land in `[0, max_hp]`. -/
theorem clamp_mem (v : Int) : 0 ≤ clamp v 0 maxHp ∧ clamp v 0 maxHp ≤ maxHp :=
  ⟨le_max_left 0 _, max_le (by norm_num [maxHp]) (min_le_left _ _)⟩

/-- Writing a clamped value into one health slot keeps the invariant. -/
theorem stateInv_set_hp_clamp (g : BiteFightGame) (h : stateInv g) (k : Nat) (v : Int) :
    stateInv { g with hp := updI g.hp k (clamp v 0 maxHp) } := by
  refine ⟨fun i => ?_, h.2⟩
  by_cases hi : i = k
  · simpa [updI, hi] using clamp_mem v
  · simpa [updI, hi] using h.1 i

/-- Adding a natural-number stack onto one bleed slot keeps the invariant. -/
theorem stateInv_set_bleed_add (g : BiteFightGame) (h : stateInv g) (k : Nat) (n : Nat) :
    stateInv { g with bleed := updI g.bleed k (g.bleed k + (n : Int)) } := by
  refine ⟨h.1, fun i => ?_⟩
  by_cases hi : i = k
  · simpa [updI, hi] using add_nonneg (h.2 k) (Int.natCast_nonneg n)
  · simpa [updI, hi] using h.2 i

/-- Kill counters play no role in the invariant. -/
theorem stateInv_set_kills (g : BiteFightGame) (h : stateInv g) (f : Nat → Nat) :
    stateInv { g with kills := f } := ⟨h.1, h.2⟩

/-- One bleed tick keeps the invariant. -/
theorem bleedTick_stateInv (g : BiteFightGame) (p : Player) (h : stateInv g) :
    stateInv (bleedTick g p).1 := by
  unfold bleedTick
  split
  · exact stateInv_set_hp_clamp g h p.id _
  · exact h

/-- One resolved action keeps the invariant, whatever the draws. -/
theorem attackAction_stateInv (g : BiteFightGame) (a t : Player) (d : AttackDraws)
    (h : stateInv g) : stateInv (attackAction g a t d).1 := by
  unfold attackAction
  dsimp only
  split_ifs <;>
    first
      | exact h
      | exact stateInv_set_kills _ (stateInv_set_hp_clamp _ h _ _) _
      | exact stateInv_set_hp_clamp _ h _ _
      | exact stateInv_set_kills _
          (stateInv_set_hp_clamp _ (stateInv_set_bleed_add _ h _ _) _ _) _

/-- The whole bleed phase keeps the invariant. -/
theorem bleedPhaseAux_stateInv (l : List Player) :
    ∀ g : BiteFightGame, stateInv g → stateInv (bleedPhaseAux g l).1 := by
  induction l with
  | nil => intro g h; exact h
  | cons p rest ih => intro g h; exact ih _ (bleedTick_stateInv g p h)

/-- The whole attack phase keeps the invariant. -/
theorem attackPhase_stateInv (l : List (Player × AttackDraws)) :
    ∀ g : BiteFightGame, stateInv g → stateInv (attackPhase g l).1 := by
  induction l with
  | nil => intro g h; exact h
  | cons ad rest ih =>
    intro g h
    obtain ⟨a, d⟩ := ad
    simp only [attackPhase]
    split
    · exact ih g h
    · split
      · exact h
      · exact ih _ (attackAction_stateInv g a _ d h)

/-- One resolved round keeps the invariant. -/
theorem resolveRound_stateInv (g : BiteFightGame)
    (order : List (Player × AttackDraws)) (h : stateInv g) :
    stateInv (resolveRound g order).1 := by
  unfold resolveRound bleedPhase
  exact attackPhase_stateInv order _ (bleedPhaseAux_stateInv _ _ ⟨h.1, h.2⟩)

/-- Any run of rounds keeps the invariant. -/
theorem runRounds_stateInv (rs : List (List (Player × AttackDraws))) :
    ∀ g : BiteFightGame, stateInv g → stateInv (runRounds g rs).1 := by
  induction rs with
  | nil => intro g h; exact h
  | cons r rest ih => intro g h; exact ih _ (resolveRound_stateInv g r h)

/-- C4: from any state whose health values lie in `[0, max_hp]` and
whose bleed stacks are non-negative, every health value is again in
`[0, max_hp]` and every bleed stack again non-negative after a bleed
tick, after any single bite or fight action (so after every hit), after
a whole resolved round, and after any sequence of resolved rounds —
health is never negative and never exceeds `max_hp = 100`. -/
theorem c4_health_bounds_bleed_nonneg (g : BiteFightGame) (h : stateInv g) :
    (∀ p : Player, stateInv (bleedTick g p).1) ∧
    (∀ (a t : Player) (d : AttackDraws), stateInv (attackAction g a t d).1) ∧
    (∀ order : List (Player × AttackDraws), stateInv (resolveRound g order).1) ∧
    (∀ rounds : List (List (Player × AttackDraws)), stateInv (runRounds g rounds).1) :=
  ⟨fun p => bleedTick_stateInv g p h,
   fun a t d => attackAction_stateInv g a t d h,
   fun order => resolveRound_stateInv g order h,
   fun rounds => runRounds_stateInv rounds g h⟩

/-- C4 witness at the concrete mid-match state `cGame`. -/
theorem c4_health_bounds_bleed_nonneg_witness :
    (∀ p : Player, stateInv (bleedTick cGame p).1) ∧
    (∀ (a t : Player) (d : AttackDraws), stateInv (attackAction cGame a t d).1) ∧
    (∀ order : List (Player × AttackDraws), stateInv (resolveRound cGame order).1) ∧
    (∀ rounds : List (List (Player × AttackDraws)),
      stateInv (runRounds cGame rounds).1) :=
  c4_health_bounds_bleed_nonneg cGame
    ⟨fun i => by dsimp only [cGame]; split <;> norm_num [maxHp],
     fun i => by dsimp only [cGame]; norm_num⟩

/-! ## C5 — kill crediting -/

/-- Number of hit-caused deaths credited to attacker `aId` in an event
list. -/
def killsCredited (aId : Nat) (evs : List AttackEvent) : Nat :=
  (evs.filter (fun e => e.attackerId == aId && e.killed)).length

/-- Credit count over a cons. -/
theorem killsCredited_cons (x : Nat) (e : AttackEvent) (evs : List AttackEvent) :
    killsCredited x (e :: evs)
      = (if (e.attackerId == x && e.killed) = true then 1 else 0)
        + killsCredited x evs := by
  unfold killsCredited
  by_cases hc : (e.attackerId == x && e.killed) = true <;>
    simp [List.filter_cons, hc, Nat.add_comm]

/-- Credit count over an append. -/
theorem killsCredited_append (x : Nat) (l₁ l₂ : List AttackEvent) :
    killsCredited x (l₁ ++ l₂) = killsCredited x l₁ + killsCredited x l₂ := by
  unfold killsCredited
  rw [List.filter_append, List.length_append]

/-- Every resolved action raises the attacker's kill counter by exactly
one when its event records a kill credited to them, and leaves every
kill counter unchanged otherwise. -/
theorem attackAction_kills_eq (g : BiteFightGame) (a t : Player) (d : AttackDraws)
    (x : Nat) :
    (attackAction g a t d).1.kills x
      = g.kills x +
        (if ((attackAction g a t d).2.attackerId == x
              && (attackAction g a t d).2.killed) = true then 1 else 0) := by
  unfold attackAction
  dsimp only
  split_ifs <;> by_cases hx : x = a.id <;> simp_all [updN]

/-- An event records a kill exactly when the action hit and left the
target at (clamped) zero health. -/
theorem attackAction_killed_iff (g : BiteFightGame) (a t : Player) (d : AttackDraws) :
    ((attackAction g a t d).2.killed = true ↔
      (attackAction g a t d).2.missed = false ∧
      (attackAction g a t d).2.targetHpAfter ≤ 0) := by
  unfold attackAction
  dsimp only
  split_ifs <;> simp_all

/-- A bleed tick never touches the kill counters. -/
theorem bleedTick_kills (g : BiteFightGame) (p : Player) :
    (bleedTick g p).1.kills = g.kills := by
  unfold bleedTick
  split <;> rfl

/-- The bleed phase never touches the kill counters. -/
theorem bleedPhaseAux_kills (l : List Player) :
    ∀ g : BiteFightGame, (bleedPhaseAux g l).1.kills = g.kills := by
  induction l with
  | nil => intro g; rfl
  | cons p rest ih =>
    intro g
    exact (ih (bleedTick g p).1).trans (bleedTick_kills g p)

/-- Kill accounting over the attack phase. -/
theorem attackPhase_kills_eq (x : Nat) :
    ∀ (l : List (Player × AttackDraws)) (g : BiteFightGame),
      (attackPhase g l).1.kills x
        = g.kills x + killsCredited x (attackPhase g l).2 := by
  intro l
  induction l with
  | nil => intro g; simp [attackPhase, killsCredited]
  | cons ad rest ih =>
    intro g
    obtain ⟨a, d⟩ := ad
    simp only [attackPhase]
    split
    · exact ih g
    · split
      · simp [killsCredited]
      · dsimp only
        rw [killsCredited_cons, ih ((attackAction g a _ d).1),
          attackAction_kills_eq g a _ d x, Nat.add_assoc]

/-- Kill accounting over one resolved round. -/
theorem resolveRound_kills_eq (g : BiteFightGame)
    (r : List (Player × AttackDraws)) (x : Nat) :
    (resolveRound g r).1.kills x = g.kills x + killsCredited x (resolveRound g r).2.2 := by
  unfold resolveRound bleedPhase
  rw [attackPhase_kills_eq x r, bleedPhaseAux_kills]

/-- Kill accounting over any run of rounds. -/
theorem runRounds_kills_eq (x : Nat) :
    ∀ (rs : List (List (Player × AttackDraws))) (g : BiteFightGame),
      (runRounds g rs).1.kills x = g.kills x + killsCredited x (runRounds g rs).2 := by
  intro rs
  induction rs with
  | nil => intro g; simp [runRounds, killsCredited]
  | cons r rest ih =>
    intro g
    simp only [runRounds]
    rw [killsCredited_append, ih ((resolveRound g r).1),
      resolveRound_kills_eq g r x, Nat.add_assoc]

/-- Every event of the attack phase records a kill exactly when its hit
left the target at zero health. -/
theorem attackPhase_events_killed_iff (l : List (Player × AttackDraws)) :
    ∀ g : BiteFightGame, ∀ e ∈ (attackPhase g l).2,
      (e.killed = true ↔ e.missed = false ∧ e.targetHpAfter ≤ 0) := by
  induction l with
  | nil => intro g e he; simp [attackPhase] at he
  | cons ad rest ih =>
    intro g e he
    obtain ⟨a, d⟩ := ad
    simp only [attackPhase] at he
    split at he
    · exact ih g e he
    · split at he
      · simp at he
      · dsimp only at he
        rcases List.mem_cons.mp he with h' | h'
        · subst h'
          exact attackAction_killed_iff g a _ d
        · exact ih _ e h'

/-- Every event of a run of rounds records a kill exactly when its hit
left the target at zero health. -/
theorem runRounds_events_killed_iff (rs : List (List (Player × AttackDraws))) :
    ∀ g : BiteFightGame, ∀ e ∈ (runRounds g rs).2,
      (e.killed = true ↔ e.missed = false ∧ e.targetHpAfter ≤ 0) := by
  induction rs with
  | nil => intro g e he; simp [runRounds] at he
  | cons r rest ih =>
    intro g e he
    simp only [runRounds] at he
    rcases List.mem_append.mp he with h' | h'
    · exact attackPhase_events_killed_iff _ _ e h'
    · exact ih _ e h'

/-- C5: over any run of resolved rounds, each player's per-match kill
counter grows by exactly the number of attack events credited to them as
kills — and an attack event is credited as a kill exactly when it is a
non-missed bite or fight hit that left its target at zero health.  Bleed
ticks produce no attack events and never change a kill counter, so bleed
deaths credit no one. -/
theorem c5_kills_equal_hit_deaths (g : BiteFightGame)
    (rounds : List (List (Player × AttackDraws))) (x : Nat) :
    (runRounds g rounds).1.kills x
      = g.kills x + killsCredited x (runRounds g rounds).2 ∧
    (∀ e ∈ (runRounds g rounds).2,
      (e.killed = true ↔ e.missed = false ∧ e.targetHpAfter ≤ 0)) ∧
    (∀ (p : Player), (bleedTick g p).1.kills = g.kills) :=
  ⟨runRounds_kills_eq x rounds g,
   runRounds_events_killed_iff rounds g,
   fun p => bleedTick_kills g p⟩

/-! ## C6 — the action-resolution distributions -/

/-- A concrete set of valid draws: a bite that hits, applies bleed, and
a fight branch that would hit without a critical. -/
def cDraws : AttackDraws :=
  { targetSel := 0, actionRoll := 1 / 4, biteMissRoll := 1 / 2, biteDmgRoll := 10,
    bleedRoll := 1 / 10, bleedStackRoll := 3, fightMissRoll := 1 / 2,
    fightBaseRoll := 20, critRoll := 1 / 2 }

/-- The action is a bite exactly when the action roll is below 0.55. -/
theorem attackAction_kind_iff (g : BiteFightGame) (a t : Player) (d : AttackDraws) :
    ((attackAction g a t d).2.kind = .bite ↔ d.actionRoll < 55 / 100) := by
  unfold attackAction
  by_cases h1 : d.actionRoll < 55 / 100
  · rw [if_pos h1]
    by_cases h2 : d.biteMissRoll < 15 / 100
    · rw [if_pos h2]; simp [h1]
    · rw [if_neg h2]; dsimp only; split <;> split <;> simp [h1]
  · rw [if_neg h1]
    by_cases h3 : d.fightMissRoll < 12 / 100
    · rw [if_pos h3]; simp [h1]
    · rw [if_neg h3]; dsimp only; split <;> split <;> simp [h1]

/-- A bite misses exactly when its miss roll is below 0.15. -/
theorem attackAction_bite_missed_iff (g : BiteFightGame) (a t : Player)
    (d : AttackDraws) (h1 : d.actionRoll < 55 / 100) :
    ((attackAction g a t d).2.missed = true ↔ d.biteMissRoll < 15 / 100) := by
  unfold attackAction
  rw [if_pos h1]
  by_cases h2 : d.biteMissRoll < 15 / 100
  · rw [if_pos h2]; simp [h2]
  · rw [if_neg h2]; dsimp only; split <;> split <;> simp [h2]

/-- A fight misses exactly when its miss roll is below 0.12. -/
theorem attackAction_fight_missed_iff (g : BiteFightGame) (a t : Player)
    (d : AttackDraws) (h1 : ¬ d.actionRoll < 55 / 100) :
    ((attackAction g a t d).2.missed = true ↔ d.fightMissRoll < 12 / 100) := by
  unfold attackAction
  rw [if_neg h1]
  by_cases h3 : d.fightMissRoll < 12 / 100
  · rw [if_pos h3]; simp [h3]
  · rw [if_neg h3]; dsimp only; split <;> split <;> simp [h3]

/-- Payload of a bite that hits: the damage is the `[8,18]` draw, a
bleed stack is applied exactly when the bleed roll is below 0.30 and
then adds the `[2,5]` draw onto the target's stack, and the target's
health moves through `clamp`. -/
theorem attackAction_bite_hit_spec (g : BiteFightGame) (a t : Player)
    (d : AttackDraws) (h1 : d.actionRoll < 55 / 100)
    (h2 : ¬ d.biteMissRoll < 15 / 100) :
    (attackAction g a t d).2.missed = false ∧
    (attackAction g a t d).2.dmg = (d.biteDmgRoll : Int) ∧
    ((attackAction g a t d).2.bleedApplied = true ↔ d.bleedRoll < 30 / 100) ∧
    ((attackAction g a t d).2.bleedApplied = true →
      (attackAction g a t d).1.bleed t.id
        = g.bleed t.id + (d.bleedStackRoll : Int)) ∧
    ((attackAction g a t d).2.bleedApplied = false →
      (attackAction g a t d).1.bleed = g.bleed) ∧
    (attackAction g a t d).1.hp t.id
      = clamp (g.hp t.id - (d.biteDmgRoll : Int)) 0 maxHp := by
  unfold attackAction
  rw [if_pos h1, if_neg h2]
  dsimp only
  by_cases h3 : d.bleedRoll < 30 / 100
  · have hb : decide (d.bleedRoll < 30 / 100) = true := decide_eq_true h3
    rw [if_pos hb]
    split <;>
      exact ⟨rfl, rfl, by simp [h3], fun _ => by simp [updI], fun hf => by simp [h3] at hf,
        by simp [updI]⟩
  · have hb : ¬ decide (d.bleedRoll < 30 / 100) = true := by simpa using h3
    rw [if_neg hb]
    split <;>
      exact ⟨rfl, rfl, by simp [h3], fun hf => by simp [h3] at hf, fun _ => rfl,
        by simp [updI]⟩

/-- Payload of a fight that hits: the damage is the `[14,28]` draw,
multiplied by 1.5 with integer truncation exactly when the crit roll is
below 0.15; no bleed is applied and the target's health moves through
`clamp`. -/
theorem attackAction_fight_hit_spec (g : BiteFightGame) (a t : Player)
    (d : AttackDraws) (h1 : ¬ d.actionRoll < 55 / 100)
    (h3 : ¬ d.fightMissRoll < 12 / 100) :
    (attackAction g a t d).2.missed = false ∧
    (attackAction g a t d).2.dmg
      = (if d.critRoll < 15 / 100 then ((3 * d.fightBaseRoll / 2 : Nat) : Int)
         else (d.fightBaseRoll : Int)) ∧
    (attackAction g a t d).1.bleed = g.bleed ∧
    (attackAction g a t d).1.hp t.id
      = clamp (g.hp t.id - (attackAction g a t d).2.dmg) 0 maxHp := by
  unfold attackAction
  rw [if_neg h1, if_neg h3]
  dsimp only
  by_cases h5 : d.critRoll < 15 / 100
  · have hc : decide (d.critRoll < 15 / 100) = true := decide_eq_true h5
    rw [if_pos hc, if_pos h5]
    split <;> exact ⟨rfl, rfl, rfl, by simp [updI]⟩
  · have hc : ¬ decide (d.critRoll < 15 / 100) = true := by simpa using h5
    rw [if_neg hc, if_neg h5]
    split <;> exact ⟨rfl, rfl, rfl, by simp [updI]⟩

/-- A missed action leaves the session state untouched. -/
theorem attackAction_miss_state (g : BiteFightGame) (a t : Player)
    (d : AttackDraws) (hm : (attackAction g a t d).2.missed = true) :
    (attackAction g a t d).1 = g := by
  by_cases h1 : d.actionRoll < 55 / 100
  · have h2 : d.biteMissRoll < 15 / 100 :=
      (attackAction_bite_missed_iff g a t d h1).mp hm
    unfold attackAction
    rw [if_pos h1, if_pos h2]
  · have h3 : d.fightMissRoll < 12 / 100 :=
      (attackAction_fight_missed_iff g a t d h1).mp hm
    unfold attackAction
    rw [if_neg h1, if_pos h3]

/-- C6: the action resolution realizes exactly the spec's distributions
once each `random.random()` draw is uniform on `[0,1)` and each
`randint` draw uniform on its range — the branch thresholds and payload
ranges are precisely: bite iff the action roll is below 0.55 (so with
probability 0.55); a bite misses iff its miss roll is below 0.15, else
deals exactly the `[8,18]` damage draw and applies a bleed stack iff
the bleed roll is below 0.30, adding the `[2,5]` stack draw onto the
target's existing stack; a fight misses iff its miss roll is below 0.12,
else deals the `[14,28]` base draw, multiplied by 1.5 with integer
truncation (`3·base/2` rounded down) exactly when the crit roll is
below 0.15; damage lands through `clamp`, and a miss leaves the state
untouched. -/
theorem c6_action_resolution_distributions (g : BiteFightGame) (a t : Player)
    (d : AttackDraws) (hv : validDraws d) :
    ((attackAction g a t d).2.kind = .bite ↔ d.actionRoll < 55 / 100) ∧
    ((attackAction g a t d).2.kind = .bite →
      ((attackAction g a t d).2.missed = true ↔ d.biteMissRoll < 15 / 100)) ∧
    ((attackAction g a t d).2.kind = .bite → (attackAction g a t d).2.missed = false →
      (attackAction g a t d).2.dmg = (d.biteDmgRoll : Int) ∧
      8 ≤ (attackAction g a t d).2.dmg ∧ (attackAction g a t d).2.dmg ≤ 18 ∧
      ((attackAction g a t d).2.bleedApplied = true ↔ d.bleedRoll < 30 / 100) ∧
      ((attackAction g a t d).2.bleedApplied = true →
        (attackAction g a t d).1.bleed t.id
          = g.bleed t.id + (d.bleedStackRoll : Int) ∧
        2 ≤ d.bleedStackRoll ∧ d.bleedStackRoll ≤ 5) ∧
      ((attackAction g a t d).2.bleedApplied = false →
        (attackAction g a t d).1.bleed = g.bleed) ∧
      (attackAction g a t d).1.hp t.id
        = clamp (g.hp t.id - (attackAction g a t d).2.dmg) 0 maxHp) ∧
    ((attackAction g a t d).2.kind = .fight →
      ((attackAction g a t d).2.missed = true ↔ d.fightMissRoll < 12 / 100)) ∧
    ((attackAction g a t d).2.kind = .fight → (attackAction g a t d).2.missed = false →
      (attackAction g a t d).2.dmg
        = (if d.critRoll < 15 / 100 then ((3 * d.fightBaseRoll / 2 : Nat) : Int)
           else (d.fightBaseRoll : Int)) ∧
      14 ≤ d.fightBaseRoll ∧ d.fightBaseRoll ≤ 28 ∧
      (attackAction g a t d).1.bleed = g.bleed ∧
      (attackAction g a t d).1.hp t.id
        = clamp (g.hp t.id - (attackAction g a t d).2.dmg) 0 maxHp) ∧
    ((attackAction g a t d).2.missed = true → (attackAction g a t d).1 = g) := by
  obtain ⟨-, -, -, -, -, -, -, -, -, -, hbd1, hbd2, hbs1, hbs2, hfb1, hfb2⟩ := hv
  refine ⟨attackAction_kind_iff g a t d, ?_, ?_, ?_, ?_, ?_⟩
  · intro hk
    exact attackAction_bite_missed_iff g a t d ((attackAction_kind_iff g a t d).mp hk)
  · intro hk hm
    have h1 := (attackAction_kind_iff g a t d).mp hk
    have h2 : ¬ d.biteMissRoll < 15 / 100 := by
      intro hmb
      have hmt := (attackAction_bite_missed_iff g a t d h1).mpr hmb
      rw [hm] at hmt
      exact Bool.noConfusion hmt
    obtain ⟨-, hdmg, hba, hbt, hbf, hhp⟩ := attackAction_bite_hit_spec g a t d h1 h2
    refine ⟨hdmg, ?_, ?_, hba, ?_, hbf, ?_⟩
    · rw [hdmg]; exact_mod_cast hbd1
    · rw [hdmg]; exact_mod_cast hbd2
    · intro hb; exact ⟨hbt hb, hbs1, hbs2⟩
    · rw [hdmg]; exact hhp
  · intro hk
    have h1 : ¬ d.actionRoll < 55 / 100 := by
      intro hc
      have hkb := (attackAction_kind_iff g a t d).mpr hc
      rw [hk] at hkb
      exact ActionKind.noConfusion hkb
    exact attackAction_fight_missed_iff g a t d h1
  · intro hk hm
    have h1 : ¬ d.actionRoll < 55 / 100 := by
      intro hc
      have hkb := (attackAction_kind_iff g a t d).mpr hc
      rw [hk] at hkb
      exact ActionKind.noConfusion hkb
    have h3 : ¬ d.fightMissRoll < 12 / 100 := by
      intro hmf
      have hmt := (attackAction_fight_missed_iff g a t d h1).mpr hmf
      rw [hm] at hmt
      exact Bool.noConfusion hmt
    obtain ⟨-, hdmg, hbl, hhp⟩ := attackAction_fight_hit_spec g a t d h1 h3
    exact ⟨hdmg, hfb1, hfb2, hbl, hhp⟩
  · exact attackAction_miss_state g a t d

/-- C6 witness at concrete valid draws: a bite that hits and bleeds. -/
theorem c6_action_resolution_distributions_witness :
    ((attackAction cGame alice bob cDraws).2.kind = .bite ↔
        cDraws.actionRoll < 55 / 100) ∧
    ((attackAction cGame alice bob cDraws).2.kind = .bite →
      ((attackAction cGame alice bob cDraws).2.missed = true ↔
        cDraws.biteMissRoll < 15 / 100)) ∧
    ((attackAction cGame alice bob cDraws).2.kind = .bite →
      (attackAction cGame alice bob cDraws).2.missed = false →
      (attackAction cGame alice bob cDraws).2.dmg = (cDraws.biteDmgRoll : Int) ∧
      8 ≤ (attackAction cGame alice bob cDraws).2.dmg ∧
      (attackAction cGame alice bob cDraws).2.dmg ≤ 18 ∧
      ((attackAction cGame alice bob cDraws).2.bleedApplied = true ↔
        cDraws.bleedRoll < 30 / 100) ∧
      ((attackAction cGame alice bob cDraws).2.bleedApplied = true →
        (attackAction cGame alice bob cDraws).1.bleed bob.id
          = cGame.bleed bob.id + (cDraws.bleedStackRoll : Int) ∧
        2 ≤ cDraws.bleedStackRoll ∧ cDraws.bleedStackRoll ≤ 5) ∧
      ((attackAction cGame alice bob cDraws).2.bleedApplied = false →
        (attackAction cGame alice bob cDraws).1.bleed = cGame.bleed) ∧
      (attackAction cGame alice bob cDraws).1.hp bob.id
        = clamp (cGame.hp bob.id - (attackAction cGame alice bob cDraws).2.dmg)
            0 maxHp) ∧
    ((attackAction cGame alice bob cDraws).2.kind = .fight →
      ((attackAction cGame alice bob cDraws).2.missed = true ↔
        cDraws.fightMissRoll < 12 / 100)) ∧
    ((attackAction cGame alice bob cDraws).2.kind = .fight →
      (attackAction cGame alice bob cDraws).2.missed = false →
      (attackAction cGame alice bob cDraws).2.dmg
        = (if cDraws.critRoll < 15 / 100
           then ((3 * cDraws.fightBaseRoll / 2 : Nat) : Int)
           else (cDraws.fightBaseRoll : Int)) ∧
      14 ≤ cDraws.fightBaseRoll ∧ cDraws.fightBaseRoll ≤ 28 ∧
      (attackAction cGame alice bob cDraws).1.bleed = cGame.bleed ∧
      (attackAction cGame alice bob cDraws).1.hp bob.id
        = clamp (cGame.hp bob.id - (attackAction cGame alice bob cDraws).2.dmg)
            0 maxHp) ∧
    ((attackAction cGame alice bob cDraws).2.missed = true →
      (attackAction cGame alice bob cDraws).1 = cGame) :=
  c6_action_resolution_distributions cGame alice bob cDraws
    (by norm_num [validDraws, cDraws])

end BiteFight
